import Mathlib

/-!
Verification of the document-ingestion pipeline of the `aiagentapis` Flask
service (sources under `src/`).

Modelling conventions (a shallow embedding of the Python code):

* a Python `str` is a sequence of Unicode code points, modelled as `List Char`
  (string literals appear as `"...".toList`);
* Python `bytes` are modelled as `List Nat`, each element intended below 256;
* `None` becomes `none`; raised exceptions become `Except` errors
  (`ValueError`, `FileNotFoundError` and the SDK failures are distinguished
  by explicit error inductives, mirroring the `try`/`except` clauses of the
  routes);
* external collaborators (the Azure blob SDK, `PyPDF2`'s page-level text
  extraction, the OpenAI chat completion) are oracles passed in as function
  arguments; everything the repository itself computes is translated
  faithfully from the Python sources;
* the standard codecs invoked by `bytes.decode` (`utf-8`, `utf-16`,
  `latin-1`, `cp1252`) are modelled byte-for-byte after CPython's strict
  decoders.
-/

deriving instance DecidableEq for Except

namespace AiAgent

/-- Python `str.strip()` with no argument: remove leading and trailing
whitespace (modelled on the ASCII whitespace characters). -/
def pyStrip (s : List Char) : List Char :=
  ((s.dropWhile Char.isWhitespace).reverse.dropWhile Char.isWhitespace).reverse

/-- Python `str.lower()` (ASCII case folding, which is all the call sites
use: MIME content types and filename extensions). -/
def pyLower (s : List Char) : List Char :=
  s.map Char.toLower

/-- Python substring containment, `needle in hay` for `str`. -/
def containsSub (needle : List Char) : List Char → Bool
  | [] => needle.isEmpty
  | c :: t => needle.isPrefixOf (c :: t) || containsSub needle t

/-- Python `s.endswith(suffix)`. -/
def endsWithList (s suffix : List Char) : Bool :=
  List.isSuffixOf suffix s

/-- Python `s.split(sep)` for a one-character separator: split on every
occurrence, keeping empty segments; the result is always non-empty. -/
def splitChar (sep : Char) : List Char → List (List Char)
  | [] => [[]]
  | c :: rest =>
    match splitChar sep rest with
    | [] => [[]]
    | s :: ss => if c = sep then [] :: s :: ss else (c :: s) :: ss

/-- Python `s.split(sep, 1)` for a one-character separator: split at the
first occurrence only, so the result has one or two segments. -/
def splitFirst (sep : Char) : List Char → List (List Char)
  | [] => [[]]
  | c :: rest =>
    if c = sep then [[], rest]
    else
      match splitFirst sep rest with
      | [] => [[c]]
      | s :: ss => (c :: s) :: ss

/-- Python `a or b` on two optional strings, with `None` and `""` falsy. -/
def pyOr : Option (List Char) → Option (List Char) → Option (List Char)
  | some s, b => if s.isEmpty then b else some s
  | none, b => b

/-! ### The character decoders behind `bytes.decode`

CPython's strict (`errors="strict"`) decoders for the four encodings that
`FileProcessor._extract_from_text` tries, modelled on byte lists. -/

/-- Decode the continuation of a two-byte UTF-8 sequence whose lead byte is
`b0` (already known to lie in `0xC2..0xDF`, which rules out overlong
forms). -/
def utf8DecodeTwo (b0 : Nat) : List Nat → Option (Char × List Nat)
  | b1 :: rest =>
    if 0x80 ≤ b1 ∧ b1 < 0xC0 then
      some (Char.ofNat ((b0 - 0xC0) * 0x40 + (b1 - 0x80)), rest)
    else none
  | [] => none

/-- Decode the continuation of a three-byte UTF-8 sequence whose lead byte
is `b0` (in `0xE0..0xEF`); rejects overlong forms and surrogates. -/
def utf8DecodeThree (b0 : Nat) : List Nat → Option (Char × List Nat)
  | b1 :: b2 :: rest =>
    if (0x80 ≤ b1 ∧ b1 < 0xC0) ∧ (0x80 ≤ b2 ∧ b2 < 0xC0) then
      if 0x800 ≤ (b0 - 0xE0) * 0x1000 + (b1 - 0x80) * 0x40 + (b2 - 0x80) ∧
          ¬ (0xD800 ≤ (b0 - 0xE0) * 0x1000 + (b1 - 0x80) * 0x40 + (b2 - 0x80) ∧
             (b0 - 0xE0) * 0x1000 + (b1 - 0x80) * 0x40 + (b2 - 0x80) < 0xE000) then
        some (Char.ofNat ((b0 - 0xE0) * 0x1000 + (b1 - 0x80) * 0x40 + (b2 - 0x80)), rest)
      else none
    else none
  | _ => none

/-- Decode the continuation of a four-byte UTF-8 sequence whose lead byte
is `b0` (in `0xF0..0xF4`); rejects overlong forms and values above
U+10FFFF. -/
def utf8DecodeFour (b0 : Nat) : List Nat → Option (Char × List Nat)
  | b1 :: b2 :: b3 :: rest =>
    if (0x80 ≤ b1 ∧ b1 < 0xC0) ∧ (0x80 ≤ b2 ∧ b2 < 0xC0) ∧ (0x80 ≤ b3 ∧ b3 < 0xC0) then
      if 0x10000 ≤ (b0 - 0xF0) * 0x40000 + (b1 - 0x80) * 0x1000 + (b2 - 0x80) * 0x40 + (b3 - 0x80) ∧
          (b0 - 0xF0) * 0x40000 + (b1 - 0x80) * 0x1000 + (b2 - 0x80) * 0x40 + (b3 - 0x80) ≤ 0x10FFFF then
        some
          (Char.ofNat ((b0 - 0xF0) * 0x40000 + (b1 - 0x80) * 0x1000 + (b2 - 0x80) * 0x40 + (b3 - 0x80)),
            rest)
      else none
    else none
  | _ => none

/-- Decode one character from the front of a UTF-8 byte stream, returning
it with the remaining bytes; `none` on the empty stream or any malformed
sequence (truncation, stray continuation byte, overlong form, surrogate,
value above U+10FFFF). -/
def utf8DecodeOne : List Nat → Option (Char × List Nat)
  | [] => none
  | b0 :: rest =>
    if b0 < 0x80 then some (Char.ofNat b0, rest)
    else if b0 < 0xC2 then none
    else if b0 < 0xE0 then utf8DecodeTwo b0 rest
    else if b0 < 0xF0 then utf8DecodeThree b0 rest
    else if b0 < 0xF5 then utf8DecodeFour b0 rest
    else none

/-- The decoding loop behind `utf8Decode`, structurally recursive on a fuel
bound; the fuel never runs out when it starts at the byte count, since
each step consumes at least one byte. -/
def utf8DecodeLoop : Nat → List Nat → Option (List Char)
  | _, [] => some []
  | 0, _ :: _ => none
  | fuel + 1, b0 :: rest =>
    match utf8DecodeOne (b0 :: rest) with
    | none => none
    | some (c, rem) => (utf8DecodeLoop fuel rem).map (fun cs => c :: cs)

/-- Strict UTF-8 decoding (CPython `bytes.decode("utf-8")`): decode
characters from the front until the stream is exhausted, failing on any
malformed sequence. -/
def utf8Decode (content : List Nat) : Option (List Char) :=
  utf8DecodeLoop content.length content

/-- UTF-8 encoding of one Unicode scalar value (`str.encode("utf-8")`,
per character). -/
def utf8EncodeChar (c : Char) : List Nat :=
  let n := c.toNat
  if n < 0x80 then [n]
  else if n < 0x800 then [0xC0 + n / 0x40, 0x80 + n % 0x40]
  else if n < 0x10000 then [0xE0 + n / 0x1000, 0x80 + n / 0x40 % 0x40, 0x80 + n % 0x40]
  else [0xF0 + n / 0x40000, 0x80 + n / 0x1000 % 0x40, 0x80 + n / 0x40 % 0x40, 0x80 + n % 0x40]

/-- UTF-8 encoding of a whole string (`str.encode("utf-8")`). -/
def utf8Encode : List Char → List Nat
  | [] => []
  | c :: cs => utf8EncodeChar c ++ utf8Encode cs

/-- Group a byte list into 16-bit code units (little- or big-endian);
fails on an odd number of bytes, as CPython's UTF-16 decoder does
("truncated data"). -/
def utf16Units (le : Bool) : List Nat → Option (List Nat)
  | [] => some []
  | [_] => none
  | a :: b :: rest =>
    (utf16Units le rest).map (fun us => (if le then b * 0x100 + a else a * 0x100 + b) :: us)

/-- Combine 16-bit code units into characters, pairing surrogates; fails on
an unpaired surrogate, as the strict decoder does. -/
def utf16Combine : List Nat → Option (List Char)
  | [] => some []
  | u :: rest =>
    if u < 0xD800 ∨ 0xE000 ≤ u then
      (utf16Combine rest).map (fun cs => Char.ofNat u :: cs)
    else if u < 0xDC00 then
      match rest with
      | v :: rest2 =>
        if 0xDC00 ≤ v ∧ v < 0xE000 then
          (utf16Combine rest2).map
            (fun cs => Char.ofNat (0x10000 + (u - 0xD800) * 0x400 + (v - 0xDC00)) :: cs)
        else none
      | [] => none
    else none

/-- Strict UTF-16 decoding (CPython `bytes.decode("utf-16")`): honour a
leading byte-order mark and strip it, defaulting to little-endian order
(the native order on the platforms the service runs on) when absent. -/
def utf16Decode (content : List Nat) : Option (List Char) :=
  match content with
  | 0xFF :: 0xFE :: rest => (utf16Units true rest).bind utf16Combine
  | 0xFE :: 0xFF :: rest => (utf16Units false rest).bind utf16Combine
  | _ => (utf16Units true content).bind utf16Combine

/-- Latin-1 decoding (`bytes.decode("latin-1")`): every byte maps directly
to the code point of the same value, so decoding never fails. -/
def latin1Decode (content : List Nat) : Option (List Char) :=
  some (content.map Char.ofNat)

/-- The bytes CPython's `cp1252` codec leaves undefined. -/
def cp1252Invalid (b : Nat) : Bool :=
  b = 0x81 || b = 0x8D || b = 0x8F || b = 0x90 || b = 0x9D

/-- The Windows-1252 byte-to-code-point table: bytes outside 0x80–0x9F map
to themselves, the rest to their mapped characters. -/
def cp1252MapByte (b : Nat) : Nat :=
  if b = 0x80 then 0x20AC
  else if b = 0x82 then 0x201A
  else if b = 0x83 then 0x0192
  else if b = 0x84 then 0x201E
  else if b = 0x85 then 0x2026
  else if b = 0x86 then 0x2020
  else if b = 0x87 then 0x2021
  else if b = 0x88 then 0x02C6
  else if b = 0x89 then 0x2030
  else if b = 0x8A then 0x0160
  else if b = 0x8B then 0x2039
  else if b = 0x8C then 0x0152
  else if b = 0x8E then 0x017D
  else if b = 0x91 then 0x2018
  else if b = 0x92 then 0x2019
  else if b = 0x93 then 0x201C
  else if b = 0x94 then 0x201D
  else if b = 0x95 then 0x2022
  else if b = 0x96 then 0x2013
  else if b = 0x97 then 0x2014
  else if b = 0x98 then 0x02DC
  else if b = 0x99 then 0x2122
  else if b = 0x9A then 0x0161
  else if b = 0x9B then 0x203A
  else if b = 0x9C then 0x0153
  else if b = 0x9E then 0x017E
  else if b = 0x9F then 0x0178
  else b

/-- Strict Windows-1252 decoding (`bytes.decode("cp1252")`): fails exactly
when some byte is one of the five undefined values. -/
def cp1252Decode (content : List Nat) : Option (List Char) :=
  if content.any cp1252Invalid then none
  else some (content.map (fun b => Char.ofNat (cp1252MapByte b)))

/-! ### `services/file_processor.py` -/

/-- Extraction failures; each constructor corresponds to one of the
`ValueError`s `FileProcessor` can raise (the dynamic message text is not
modelled, but `noExtractableText` keeps the page count the message
reports). -/
inductive ExtractErr where
  | encryptedPdf : ExtractErr
  | noExtractableText : Nat → ExtractErr
  | corruptPdf : ExtractErr
  | undecodableText : ExtractErr
  | unsupportedFileType : List Char → ExtractErr
deriving DecidableEq

/-- The part of a `PyPDF2.PdfReader` the extractor looks at: the encryption
flag and, for each page in document order, the text that
`page.extract_text()` returns. -/
structure PdfDoc where
  is_encrypted : Bool
  pages : List (List Char)
deriving DecidableEq

/-- Model of `FileProcessor._determine_file_type`, magic-byte step
(`content.startswith(b'%PDF')` and the final `return 'text'`). -/
def file_type_from_magic (content : List Nat) : List Char :=
  if List.isPrefixOf [0x25, 0x50, 0x44, 0x46] content then "pdf".toList
  else "text".toList

/-- Model of `FileProcessor._determine_file_type`, filename-extension step
(taken when the content-type step fell through; `if filename:` makes an
absent or empty filename fall through to the magic-byte step). -/
def file_type_from_filename (filename : Option (List Char)) (content : List Nat) : List Char :=
  match filename with
  | some fn =>
    if fn.isEmpty then file_type_from_magic content
    else
      let filename_lower := pyLower fn
      if endsWithList filename_lower ".pdf".toList then "pdf".toList
      else if endsWithList filename_lower ".txt".toList ∨ endsWithList filename_lower ".md".toList ∨
          endsWithList filename_lower ".csv".toList ∨ endsWithList filename_lower ".json".toList ∨
          endsWithList filename_lower ".xml".toList then "text".toList
      else file_type_from_magic content
  | none => file_type_from_magic content

/-- `FileProcessor._determine_file_type(content_type, filename, content)`:
content-type substring check first (`if content_type:` makes an absent or
empty header fall through), then filename extension, then magic bytes,
then the `'text'` default. -/
def determine_file_type (content_type filename : Option (List Char)) (content : List Nat) :
    List Char :=
  match content_type with
  | some ct =>
    if ct.isEmpty then file_type_from_filename filename content
    else if containsSub "pdf".toList (pyLower ct) then "pdf".toList
    else if containsSub "text".toList (pyLower ct) then "text".toList
    else file_type_from_filename filename content
  | none => file_type_from_filename filename content

/-- `FileProcessor._extract_from_pdf(content)`, with `PyPDF2` abstracted as
an oracle `pdfParse` (`none` models a `PdfReadError`, i.e. a corrupt
container): reject encrypted documents, keep the pages whose extracted text
is non-blank, join them with a newline, and reject a blank joined result. -/
def extract_from_pdf (pdfParse : List Nat → Option PdfDoc) (content : List Nat) :
    Except ExtractErr (List Char) :=
  match pdfParse content with
  | none => .error .corruptPdf
  | some pdf_reader =>
    if pdf_reader.is_encrypted then .error .encryptedPdf
    else
      let text_content := pdf_reader.pages.filter (fun page_text => ¬ (pyStrip page_text).isEmpty)
      let extracted_text := List.intercalate ['\n'] text_content
      if (pyStrip extracted_text).isEmpty then .error (.noExtractableText pdf_reader.pages.length)
      else .ok extracted_text

/-- The candidate-encoding list of `FileProcessor._extract_from_text`:
`['utf-8', 'utf-16', 'latin-1', 'cp1252']`, in that order. -/
def encodings : List (List Nat → Option (List Char)) :=
  [utf8Decode, utf16Decode, latin1Decode, cp1252Decode]

/-- The decoding loop of `_extract_from_text`: return the first successful
decode, trying the candidates in list order. -/
def firstDecode : List (List Nat → Option (List Char)) → List Nat → Option (List Char)
  | [], _ => none
  | d :: ds, content =>
    match d content with
    | some s => some s
    | none => firstDecode ds content

/-- `FileProcessor._extract_from_text(content)`: try the candidate
encodings in order and fail (with the `ValueError` the undecodable case
raises) only when every one of them fails. -/
def extract_from_text (content : List Nat) : Except ExtractErr (List Char) :=
  match firstDecode encodings content with
  | some s => .ok s
  | none => .error .undecodableText

/-- `FileProcessor.extract_text_from_content(content, content_type,
filename)`: route to the PDF or text extractor by the determined file
type; the final branch (file type neither `'pdf'` nor `'txt'`/`'text'`)
falls back to the text path before raising "Unsupported file type". -/
def extract_text_from_content (pdfParse : List Nat → Option PdfDoc) (content : List Nat)
    (content_type filename : Option (List Char)) : Except ExtractErr (List Char) :=
  let file_type := determine_file_type content_type filename content
  if file_type = "pdf".toList then extract_from_pdf pdfParse content
  else if file_type = "txt".toList ∨ file_type = "text".toList then extract_from_text content
  else
    match extract_from_text content with
    | .ok s => .ok s
    | .error _ => .error (.unsupportedFileType file_type)

/-- Discriminator for the "Unsupported file type" failure of
`extract_text_from_content`. -/
def isUnsupportedErr : Except ExtractErr (List Char) → Bool
  | .error (.unsupportedFileType _) => true
  | _ => false

/-- `FileProcessor.validate_text_length(text, max_length=100000)`: return
the text unchanged when within the budget, otherwise the first
`max_length` characters with the truncation flag set. -/
def validate_text_length (text : List Char) (max_length : Nat := 100000) : List Char × Bool :=
  if text.length ≤ max_length then (text, false)
  else (text.take max_length, true)

/-! ### `utils/helpers.py` -/

/-- `validate_file_path(file_path)`: `None` and `""` are invalid
(`if not file_path`); a path starting with `'http'` must contain a `'/'`
and a `'.'` in its last `'/'`-separated segment; any other path must
contain a `'/'` and split into at least two segments. -/
def validate_file_path : Option (List Char) → Bool
  | none => false
  | some file_path =>
    if file_path.isEmpty then false
    else if List.isPrefixOf "http".toList file_path then
      file_path.contains '/' && ((splitChar '/' file_path).getLastD []).contains '.'
    else
      file_path.contains '/' && decide (2 ≤ (splitChar '/' file_path).length)

/-! ### `services/azure_storage.py` -/

/-- A resolved blob identity: either a pre-signed (SAS) URL handed whole to
`BlobClient.from_blob_url`, or an explicit `(container, blob name)` pair
handed to `get_blob_client`. -/
inductive BlobRef where
  | sas : List Char → BlobRef
  | resolved : List Char → List Char → BlobRef
deriving DecidableEq

/-- `AzureBlobStorage._is_sas_url(url)`. -/
def is_sas_url (url : List Char) : Bool :=
  List.isPrefixOf "https://".toList url && url.contains '?'

/-- Model of the `;params` split `urllib.parse.urlparse` applies to the
last path segment: everything from the first `';'` at or after the last
`'/'` goes to the `params` field, not the path. -/
def stripLastSegmentParams (p : List Char) : List Char :=
  let last_segment := (p.reverse.takeWhile (fun c => c ≠ '/')).reverse
  if last_segment.contains ';' then
    p.take (p.length - last_segment.length) ++ last_segment.takeWhile (fun c => c ≠ ';')
  else p

/-- Model of `urllib.parse.urlparse(url).path` for an absolute
`https://` URL (the only shape the caller hands it): the `netloc`
authority ends at the first `'/'`, `'?'` or `'#'`; the path then stops at
the query (`'?'`) or fragment (`'#'`) delimiter, with `;params` split off
its last segment. -/
def urlparse_path (url : List Char) : List Char :=
  let after_scheme := url.drop "https://".toList.length
  let after_host := after_scheme.dropWhile (fun c => c ≠ '/' ∧ c ≠ '?' ∧ c ≠ '#')
  stripLastSegmentParams ((after_host.takeWhile (fun c => c ≠ '#')).takeWhile (fun c => c ≠ '?'))

/-- The locator-resolution part of `AzureBlobStorage.download_blob_content`
(and, identically, of `get_blob_properties`): SAS URLs are deferred whole;
other `https://` URLs are parsed as `host/container/name`; anything else
is `container/name` shorthand split at the first `'/'`; a failed split
raises the `ValueError` carried here as the error string. -/
def download_blob_resolve (blob_url_or_path : List Char) : Except (List Char) BlobRef :=
  if is_sas_url blob_url_or_path then .ok (.sas blob_url_or_path)
  else if List.isPrefixOf "https://".toList blob_url_or_path then
    let path_parts := splitFirst '/' ((urlparse_path blob_url_or_path).dropWhile (fun c => c = '/'))
    match path_parts with
    | [container_name, blob_name] => .ok (.resolved container_name blob_name)
    | _ => .error "Invalid blob URL format: missing container/blob_name".toList
  else
    match splitFirst '/' blob_url_or_path with
    | [container_name, blob_name] => .ok (.resolved container_name blob_name)
    | _ => .error "Invalid blob path format. Expected container/blob_name".toList

/-- What a blob-store SDK call can raise: `ResourceNotFoundError` or any
other exception. -/
inductive SdkErr where
  | resourceNotFound : SdkErr
  | other : SdkErr
deriving DecidableEq

/-- The blob properties the routes read: `file_properties.get('content_type')`
(which the SDK may report as `None`) and `file_properties.get('name')`. -/
structure BlobProps where
  content_type : Option (List Char)
  name : List Char
deriving DecidableEq

/-- The blob-store SDK as an oracle: the download and the properties call,
both taking an already-resolved reference. -/
structure BlobStore where
  sdkDownload : BlobRef → Except SdkErr (List Nat)
  sdkProps : BlobRef → Except SdkErr BlobProps

/-- How a failed pipeline step surfaces at the endpoint boundary: the
route's `except` clauses distinguish `FileNotFoundError` (404),
`ValueError` (400 processing error) and everything else (500). -/
inductive PipeErr where
  | fileNotFound : PipeErr
  | valueErr : PipeErr
  | internal : PipeErr
deriving DecidableEq

/-- `AzureBlobStorage.download_blob_content(blob_url_or_path)`: resolve the
locator (its `ValueError` propagates), call the SDK, and map
`ResourceNotFoundError` to `FileNotFoundError`. -/
def download_blob_content (store : BlobStore) (blob_url_or_path : List Char) :
    Except PipeErr (List Nat) :=
  match download_blob_resolve blob_url_or_path with
  | .error _ => .error .valueErr
  | .ok ref =>
    match store.sdkDownload ref with
    | .error .resourceNotFound => .error .fileNotFound
    | .error .other => .error .internal
    | .ok content => .ok content

/-- `AzureBlobStorage.get_blob_properties(blob_url_or_path)`: same locator
resolution as the download (its `ValueError` propagates), but its only
`except` clause re-raises every SDK exception unmapped — including
`ResourceNotFoundError` — so at the route boundary any SDK failure here
lands in the generic 500 handler. -/
def get_blob_properties (store : BlobStore) (blob_url_or_path : List Char) :
    Except PipeErr BlobProps :=
  match download_blob_resolve blob_url_or_path with
  | .error _ => .error .valueErr
  | .ok ref =>
    match store.sdkProps ref with
    | .error _ => .error .internal
    | .ok props => .ok props

/-! ### `middleware/auth.py` -/

/-- The parts of an inbound Flask request the decorated endpoints read: the
two credential headers and the parsed JSON body (a string-to-string
dictionary, `none` when `request.get_json()` yields nothing). -/
structure HttpRequest where
  xApiKey : Option (List Char)
  authorization : Option (List Char)
  jsonData : Option (List (List Char × List Char))

/-- An early JSON error response produced by a decorator or an `except`
clause: `(jsonify({"error": ..., "message": ...}), status)`. -/
structure ErrResponse where
  status : Nat
  error : List Char
  message : List Char
deriving DecidableEq

/-- Lines 19–22 of `require_api_key`: take `X-API-Key`, falling back to
`Authorization` when the former is absent or empty, and strip a
`'Bearer '` prefix from a non-empty result. -/
def effective_api_key (req : HttpRequest) : Option (List Char) :=
  match pyOr req.xApiKey req.authorization with
  | some api_key =>
    if ¬ api_key.isEmpty ∧ List.isPrefixOf "Bearer ".toList api_key then some (api_key.drop 7)
    else some api_key
  | none => none

/-- The check `require_api_key(endpoint_path)` performs before the wrapped
handler runs: 401 when no (non-empty) key was supplied, 500 when
`API_KEYS.get(endpoint_path)` is falsy (`if not expected_key:` — unset or
the empty string), 403 when the supplied key differs from the configured
one, and `none` (proceed) otherwise. The configured key is the
`expected_key` argument. -/
def require_api_key (expected_key : Option (List Char)) (req : HttpRequest) :
    Option ErrResponse :=
  match effective_api_key req with
  | none =>
    some ⟨401, "API key required".toList,
      "Please provide API key in X-API-Key header or Authorization header".toList⟩
  | some api_key =>
    if api_key.isEmpty then
      some ⟨401, "API key required".toList,
        "Please provide API key in X-API-Key header or Authorization header".toList⟩
    else
      match expected_key with
      | none =>
        some ⟨500, "Endpoint not configured".toList,
          "This endpoint is not properly configured".toList⟩
      | some expected =>
        if expected.isEmpty then
          some ⟨500, "Endpoint not configured".toList,
            "This endpoint is not properly configured".toList⟩
        else if api_key = expected then none
        else
          some ⟨403, "Invalid API key".toList,
            "The provided API key is not valid for this endpoint".toList⟩

/-- The check `validate_request_data(required_fields)` performs before the
wrapped handler runs: 400 when the body is absent or empty, 400 when a
required field is missing (the dynamic field-name list in the message is
not modelled), `none` (proceed) otherwise. -/
def validate_request_data (required_fields : List (List Char)) (req : HttpRequest) :
    Option ErrResponse :=
  if required_fields.isEmpty then none
  else
    match req.jsonData with
    | none =>
      some ⟨400, "Invalid request".toList, "Request must contain JSON data or form data".toList⟩
    | some data =>
      if data.isEmpty then
        some ⟨400, "Invalid request".toList, "Request must contain JSON data or form data".toList⟩
      else
        let missing_fields := required_fields.filter (fun f => ¬ (data.map Prod.fst).contains f)
        if missing_fields.isEmpty then none
        else some ⟨400, "Missing required fields".toList, "The following fields are required".toList⟩

/-! ### `services/openai_service.py` -/

/-- The dictionary `OpenAIService.summarize_document` returns (the failure
dictionary carries only `success` and `error`; the other fields default). -/
structure SummarizeResult where
  success : Bool
  summary : List Char
  original_length : Nat
  summary_length : Nat
  error : Option (List Char)
deriving DecidableEq

/-- `OpenAIService.summarize_document(text)`, with the chat-completion call
as an oracle `llm` mapping the document text to the model reply (`none`
models any exception from the provider): on success the summary is the
stripped reply, `original_length` is `len(text)` for the text the service
was handed, and `summary_length` is `len(summary)`. -/
def summarize_document (llm : List Char → Option (List Char)) (text : List Char) :
    SummarizeResult :=
  match llm text with
  | some reply =>
    let summary := pyStrip reply
    ⟨true, summary, text.length, summary.length, none⟩
  | none => ⟨false, [], 0, 0, some "Summarization failed".toList⟩

/-! ### `routes/ai_endpoints.py` -/

/-- A task endpoint's JSON response: the success envelope with its data and
message, or an error envelope with its HTTP status, error code and
message. -/
inductive TaskResponse (α : Type) where
  | success : α → List Char → TaskResponse α
  | failure : Nat → List Char → List Char → TaskResponse α
deriving DecidableEq

/-- The `data` object of a successful `/summarize` response. -/
structure SummarizeData where
  file_path : List Char
  file_properties : BlobProps
  summary : List Char
  original_length : Nat
  summary_length : Nat
  was_truncated : Bool
deriving DecidableEq

/-- The route-level mapping of a failed blob operation, from the three
`except` clauses shared by every task endpoint (the dynamic `str(e)`
messages are not modelled). -/
def pipe_err_response {α : Type} : PipeErr → TaskResponse α
  | .fileNotFound => .failure 404 "file_not_found".toList []
  | .valueErr => .failure 400 "processing_error".toList []
  | .internal => .failure 500 "internal_error".toList "An unexpected error occurred".toList

/-- The shared body of the six task endpoints in `routes/ai_endpoints.py`
(the code inside the `try`, after the decorators have let the request
through): validate the file path, download the blob and its properties,
extract the text, length-limit it with the endpoint's budget
(`max_length`), and hand the result to the endpoint-specific derivation
step `process` (which receives the file path, the blob properties, the
limited text and the truncation flag). -/
def task_handler {α : Type} (store : BlobStore) (pdfParse : List Nat → Option PdfDoc)
    (max_length : Nat) (process : List Char → BlobProps → List Char → Bool → TaskResponse α)
    (req : HttpRequest) : TaskResponse α :=
  let data := req.jsonData.getD []
  let file_path := data.lookup "file_path".toList
  if ¬ validate_file_path file_path then
    .failure 400 "invalid_file_path".toList "Invalid file path format".toList
  else
    match file_path with
    | none => .failure 400 "invalid_file_path".toList "Invalid file path format".toList
    | some fp =>
      match download_blob_content store fp with
      | .error e => pipe_err_response e
      | .ok file_content =>
        match get_blob_properties store fp with
        | .error e => pipe_err_response e
        | .ok file_properties =>
          match extract_text_from_content pdfParse file_content file_properties.content_type
              (some file_properties.name) with
          | .error _ => .failure 400 "processing_error".toList []
          | .ok extracted =>
            let tw := validate_text_length extracted max_length
            process fp file_properties tw.1 tw.2

/-- The body of `summarize_document` in `routes/ai_endpoints.py`: the
shared pipeline with the default length budget, followed by the
summarization call and response shaping. -/
def summarize_handler (store : BlobStore) (pdfParse : List Nat → Option PdfDoc)
    (llm : List Char → Option (List Char)) (req : HttpRequest) : TaskResponse SummarizeData :=
  task_handler store pdfParse 100000
    (fun fp file_properties text was_truncated =>
      let result := summarize_document llm text
      if ¬ result.success then
        .failure 500 "summarization_failed".toList (result.error.getD [])
      else
        .success ⟨fp, file_properties, result.summary, result.original_length,
          result.summary_length, was_truncated⟩ "Document summarized successfully".toList)
    req

/-- The decorator composition every task endpoint uses:
`@require_api_key(...)` wraps `@validate_request_data(...)` wraps the
handler, so the API-key check runs first, then the required-field check,
then the handler body. -/
def run_task_endpoint {α : Type} (expected_key : Option (List Char))
    (required_fields : List (List Char)) (handler : HttpRequest → TaskResponse α)
    (req : HttpRequest) : TaskResponse α :=
  match require_api_key expected_key req with
  | some r => .failure r.status r.error r.message
  | none =>
    match validate_request_data required_fields req with
    | some r => .failure r.status r.error r.message
    | none => handler req

/-- The full `/summarize` endpoint: decorators plus handler body, with
`required_fields = ['file_path']` as in the source. -/
def summarize_endpoint (store : BlobStore) (pdfParse : List Nat → Option PdfDoc)
    (llm : List Char → Option (List Char)) (expected_key : Option (List Char))
    (req : HttpRequest) : TaskResponse SummarizeData :=
  run_task_endpoint expected_key ["file_path".toList] (summarize_handler store pdfParse llm) req

/-! ### Supporting lemmas -/

/-- A successful single-character decode on the two-byte continuation
consumes at least one byte. -/
theorem utf8DecodeTwo_length {b0 : Nat} {l : List Nat} {c : Char} {rem : List Nat}
    (h : utf8DecodeTwo b0 l = some (c, rem)) : rem.length < l.length := by
  cases l with
  | nil => simp [utf8DecodeTwo] at h
  | cons b1 rest =>
    simp only [utf8DecodeTwo] at h
    split at h
    · simp only [Option.some.injEq, Prod.mk.injEq] at h
      obtain ⟨-, rfl⟩ := h
      simp
    · simp at h

/-- A successful single-character decode on the three-byte continuation
consumes at least one byte. -/
theorem utf8DecodeThree_length {b0 : Nat} {l : List Nat} {c : Char} {rem : List Nat}
    (h : utf8DecodeThree b0 l = some (c, rem)) : rem.length < l.length := by
  match l with
  | [] => simp [utf8DecodeThree] at h
  | [b1] => simp [utf8DecodeThree] at h
  | b1 :: b2 :: rest =>
    simp only [utf8DecodeThree] at h
    split at h
    · split at h
      · simp only [Option.some.injEq, Prod.mk.injEq] at h
        obtain ⟨-, rfl⟩ := h
        simp
        omega
      · simp at h
    · simp at h

/-- A successful single-character decode on the four-byte continuation
consumes at least one byte. -/
theorem utf8DecodeFour_length {b0 : Nat} {l : List Nat} {c : Char} {rem : List Nat}
    (h : utf8DecodeFour b0 l = some (c, rem)) : rem.length < l.length := by
  match l with
  | [] => simp [utf8DecodeFour] at h
  | [b1] => simp [utf8DecodeFour] at h
  | [b1, b2] => simp [utf8DecodeFour] at h
  | b1 :: b2 :: b3 :: rest =>
    simp only [utf8DecodeFour] at h
    split at h
    · split at h
      · simp only [Option.some.injEq, Prod.mk.injEq] at h
        obtain ⟨-, rfl⟩ := h
        simp
        omega
      · simp at h
    · simp at h

/-- A successful single-character UTF-8 decode consumes at least one
byte. -/
theorem utf8DecodeOne_length {l : List Nat} {c : Char} {rem : List Nat}
    (h : utf8DecodeOne l = some (c, rem)) : rem.length < l.length := by
  cases l with
  | nil => simp [utf8DecodeOne] at h
  | cons b0 rest =>
    simp only [utf8DecodeOne] at h
    split at h
    · simp only [Option.some.injEq, Prod.mk.injEq] at h
      obtain ⟨-, rfl⟩ := h
      simp
    · split at h
      · simp at h
      · split at h
        · have := utf8DecodeTwo_length h
          simp at this ⊢
          omega
        · split at h
          · have := utf8DecodeThree_length h
            simp at this ⊢
            omega
          · split at h
            · have := utf8DecodeFour_length h
              simp at this ⊢
              omega
            · simp at h

/-- The decoding loop does not depend on the fuel bound once the fuel
covers the byte count. -/
theorem utf8DecodeLoop_fuel : ∀ (f1 f2 : Nat) (l : List Nat), l.length ≤ f1 → l.length ≤ f2 →
    utf8DecodeLoop f1 l = utf8DecodeLoop f2 l := by
  intro f1
  induction f1 with
  | zero =>
    intro f2 l h1 h2
    cases l with
    | nil => cases f2 <;> rfl
    | cons b0 rest => simp at h1
  | succ k ih =>
    intro f2 l h1 h2
    cases l with
    | nil => cases f2 <;> rfl
    | cons b0 rest =>
      cases f2 with
      | zero => simp at h2
      | succ k2 =>
        simp only [utf8DecodeLoop]
        cases hone : utf8DecodeOne (b0 :: rest) with
        | none => rfl
        | some cr =>
          obtain ⟨c, rem⟩ := cr
          have hlen := utf8DecodeOne_length hone
          simp only [List.length_cons] at h1 h2 hlen
          show Option.map (fun cs => c :: cs) (utf8DecodeLoop k rem) =
            Option.map (fun cs => c :: cs) (utf8DecodeLoop k2 rem)
          rw [ih k2 rem (by omega) (by omega)]

/-- Unfolding rule for `utf8Decode`: a successful single-character decode
prepends that character to the decode of the remainder. -/
theorem utf8Decode_step {l : List Nat} {c : Char} {rem : List Nat}
    (h : utf8DecodeOne l = some (c, rem)) :
    utf8Decode l = (utf8Decode rem).map (fun cs => c :: cs) := by
  cases l with
  | nil => simp [utf8DecodeOne] at h
  | cons b0 rest =>
    have hlen := utf8DecodeOne_length h
    simp only [List.length_cons] at hlen
    unfold utf8Decode
    simp only [List.length_cons, utf8DecodeLoop, h]
    show Option.map (fun cs => c :: cs) (utf8DecodeLoop rest.length rem) =
      Option.map (fun cs => c :: cs) (utf8DecodeLoop rem.length rem)
    rw [utf8DecodeLoop_fuel rest.length rem.length rem (by omega) le_rfl]

/-- A Lean `Char` is a Unicode scalar value: below U+110000 and not a
surrogate. -/
theorem char_toNat_valid (c : Char) :
    c.toNat < 0x110000 ∧ ¬ (0xD800 ≤ c.toNat ∧ c.toNat < 0xE000) := by
  have h := c.valid
  simp [UInt32.isValidChar, Nat.isValidChar] at h
  change c.val.toNat < _ ∧ ¬ (_ ≤ c.val.toNat ∧ c.val.toNat < _)
  omega

/-- The single-character decoder inverts the single-character encoder on
any byte stream that continues after it. -/
theorem utf8DecodeOne_encChar (c : Char) (rest : List Nat) :
    utf8DecodeOne (utf8EncodeChar c ++ rest) = some (c, rest) := by
  obtain ⟨hlt, hsur⟩ := char_toNat_valid c
  by_cases h1 : c.toNat < 0x80
  · simp only [utf8EncodeChar, if_pos h1, List.cons_append, List.nil_append]
    simp only [utf8DecodeOne]
    rw [if_pos h1, Char.ofNat_toNat]
  · by_cases h2 : c.toNat < 0x800
    · simp only [utf8EncodeChar, if_neg h1, if_pos h2, List.cons_append, List.nil_append]
      simp only [utf8DecodeOne]
      rw [if_neg (by omega), if_neg (by omega), if_pos (by omega)]
      simp only [utf8DecodeTwo]
      rw [if_pos (by omega)]
      rw [show (0xC0 + c.toNat / 0x40 - 0xC0) * 0x40 + (0x80 + c.toNat % 0x40 - 0x80) = c.toNat by
        omega]
      rw [Char.ofNat_toNat]
    · by_cases h3 : c.toNat < 0x10000
      · simp only [utf8EncodeChar, if_neg h1, if_neg h2, if_pos h3, List.cons_append,
          List.nil_append]
        simp only [utf8DecodeOne]
        rw [if_neg (by omega), if_neg (by omega), if_neg (by omega), if_pos (by omega)]
        simp only [utf8DecodeThree]
        rw [if_pos (by omega)]
        rw [show (0xE0 + c.toNat / 0x1000 - 0xE0) * 0x1000 +
            (0x80 + c.toNat / 0x40 % 0x40 - 0x80) * 0x40 + (0x80 + c.toNat % 0x40 - 0x80) =
            c.toNat by omega]
        rw [if_pos (by omega), Char.ofNat_toNat]
      · simp only [utf8EncodeChar, if_neg h1, if_neg h2, if_neg h3, List.cons_append,
          List.nil_append]
        simp only [utf8DecodeOne]
        rw [if_neg (by omega), if_neg (by omega), if_neg (by omega), if_neg (by omega),
          if_pos (by omega)]
        simp only [utf8DecodeFour]
        rw [if_pos (by omega)]
        rw [show (0xF0 + c.toNat / 0x40000 - 0xF0) * 0x40000 +
            (0x80 + c.toNat / 0x1000 % 0x40 - 0x80) * 0x1000 +
            (0x80 + c.toNat / 0x40 % 0x40 - 0x80) * 0x40 + (0x80 + c.toNat % 0x40 - 0x80) =
            c.toNat by omega]
        rw [if_pos (by omega), Char.ofNat_toNat]

/-- Strict UTF-8 decoding inverts UTF-8 encoding. -/
theorem utf8Decode_utf8Encode (s : List Char) : utf8Decode (utf8Encode s) = some s := by
  induction s with
  | nil => rfl
  | cons c cs ih =>
    rw [utf8Encode, utf8Decode_step (utf8DecodeOne_encChar c (utf8Encode cs)), ih]
    rfl

/-- Decoding a run of one ASCII byte yields the corresponding run of one
character. -/
theorem utf8Decode_replicate_ascii (b : Nat) (hb : b < 0x80) (n : Nat) :
    utf8Decode (List.replicate n b) = some (List.replicate n (Char.ofNat b)) := by
  induction n with
  | zero => rfl
  | succ k ih =>
    rw [List.replicate_succ, List.replicate_succ,
      utf8Decode_step (show utf8DecodeOne (b :: List.replicate k b) =
        some (Char.ofNat b, List.replicate k b) by simp [utf8DecodeOne, hb]),
      ih]
    rfl

/-- Splitting at the first occurrence of an absent separator yields the
whole string as the single segment. -/
theorem splitFirst_not_mem (sep : Char) (l : List Char) (h : sep ∉ l) :
    splitFirst sep l = [l] := by
  induction l with
  | nil => rfl
  | cons c rest ih =>
    have hc : ¬ c = sep := by
      intro hcc
      subst hcc
      exact h (List.mem_cons_self c rest)
    have hr : sep ∉ rest := fun hm => h (List.mem_cons_of_mem _ hm)
    simp only [splitFirst]
    rw [if_neg hc, ih hr]

/-- Splitting at the first occurrence of a present separator yields
exactly two segments that reassemble to the input, with the separator
absent from the first. -/
theorem splitFirst_found (sep : Char) (l : List Char) (h : sep ∈ l) :
    ∃ a b, splitFirst sep l = [a, b] ∧ l = a ++ sep :: b ∧ sep ∉ a := by
  induction l with
  | nil => simp at h
  | cons c rest ih =>
    by_cases hc : c = sep
    · subst hc
      exact ⟨[], rest, by simp [splitFirst], by simp, by simp⟩
    · have hr : sep ∈ rest := by
        rcases List.mem_cons.mp h with h1 | h2
        · exact absurd h1.symm hc
        · exact h2
      obtain ⟨a, b, h1, h2, h3⟩ := ih hr
      refine ⟨c :: a, b, ?_, by simp [h2], ?_⟩
      · simp only [splitFirst]
        rw [if_neg hc, h1]
      · intro hm
        rcases List.mem_cons.mp hm with h4 | h5
        · exact hc h4.symm
        · exact h3 h5

/-- On a reference without the `https://` scheme prefix, locator
resolution takes the `container/name` fallback branch. -/
theorem download_blob_resolve_fallback (raw : List Char)
    (h : List.isPrefixOf "https://".toList raw = false) :
    download_blob_resolve raw =
      match splitFirst '/' raw with
      | [container_name, blob_name] => .ok (.resolved container_name blob_name)
      | _ => .error "Invalid blob path format. Expected container/blob_name".toList := by
  have hsas : is_sas_url raw = false := by
    unfold is_sas_url
    rw [h, Bool.false_and]
  unfold download_blob_resolve
  rw [hsas, h]
  simp

/-! ### Claim theorems -/

/-- C4: for every text and budget, `validate_text_length` returns the
text unchanged with `truncated = false` when `len(text) ≤ max`, and
exactly the first `max` characters with `truncated = true` when
`len(text) > max`; the default budget is 100000 characters. -/
theorem length_limiter_spec (text : List Char) (max_length : Nat) :
    (text.length ≤ max_length → validate_text_length text max_length = (text, false)) ∧
    (max_length < text.length →
      (validate_text_length text max_length).1 = text.take max_length ∧
      (validate_text_length text max_length).1.length = max_length ∧
      (validate_text_length text max_length).2 = true) ∧
    validate_text_length text = validate_text_length text 100000 := by
  refine ⟨?_, ?_, rfl⟩
  · intro h
    simp [validate_text_length, h]
  · intro h
    have hn : ¬ text.length ≤ max_length := by omega
    simp [validate_text_length, hn]
    omega

/-- Witness for C4: both branches of the length limiter at concrete
inputs. -/
theorem length_limiter_spec_witness :
    validate_text_length "ab".toList 5 = ("ab".toList, false) ∧
    (validate_text_length "abc".toList 2).1.length = 2 := by
  constructor
  · exact (length_limiter_spec "ab".toList 5).1 (by decide)
  · exact (((length_limiter_spec "abc".toList 2).2.1 (by decide)).2).1

/-- C8: encoding any Unicode string as UTF-8 and passing the bytes through
the text-extraction path returns the original string unchanged. -/
theorem utf8_round_trip (s : List Char) : extract_from_text (utf8Encode s) = .ok s := by
  simp only [extract_from_text, encodings, firstDecode]
  rw [utf8Decode_utf8Encode s]

/-- C3: the text extractor tries UTF-8, UTF-16, Latin-1 and Windows-1252
in exactly that order, returns the first successful decode, and fails
with the undecodable-text error exactly when every encoding in the list
fails (which, Latin-1 being total, never happens). -/
theorem text_decoding_order (content : List Nat) :
    (∀ s, utf8Decode content = some s → extract_from_text content = .ok s) ∧
    (∀ s, utf8Decode content = none → utf16Decode content = some s →
      extract_from_text content = .ok s) ∧
    (∀ s, utf8Decode content = none → utf16Decode content = none →
      latin1Decode content = some s → extract_from_text content = .ok s) ∧
    (∀ s, utf8Decode content = none → utf16Decode content = none →
      latin1Decode content = none → cp1252Decode content = some s →
      extract_from_text content = .ok s) ∧
    (extract_from_text content = .error .undecodableText ↔
      (utf8Decode content = none ∧ utf16Decode content = none ∧
        latin1Decode content = none ∧ cp1252Decode content = none)) := by
  refine ⟨?_, ?_, ?_, ?_, ?_⟩
  · intro s h1
    simp only [extract_from_text, encodings, firstDecode]
    rw [h1]
  · intro s h1 h2
    simp only [extract_from_text, encodings, firstDecode]
    rw [h1, h2]
  · intro s h1 h2 h3
    simp only [extract_from_text, encodings, firstDecode]
    rw [h1, h2, h3]
  · intro s h1 h2 h3 h4
    simp only [extract_from_text, encodings, firstDecode]
    rw [h1, h2, h3, h4]
  · constructor
    · intro h
      exfalso
      cases h1 : utf8Decode content with
      | some s =>
        simp only [extract_from_text, encodings, firstDecode, h1] at h
        exact Except.noConfusion h
      | none =>
        cases h2 : utf16Decode content with
        | some s =>
          simp only [extract_from_text, encodings, firstDecode, h1, h2] at h
          exact Except.noConfusion h
        | none =>
          simp only [extract_from_text, encodings, firstDecode, h1, h2, latin1Decode] at h
          exact Except.noConfusion h
    · rintro ⟨-, -, h3, -⟩
      simp [latin1Decode] at h3

/-- Witness for C3: the first clause at a concrete ASCII byte. -/
theorem text_decoding_order_witness : extract_from_text [0x41] = .ok ['A'] :=
  (text_decoding_order [0x41]).1 ['A'] (by decide)

/-- C2 (amended): for a raw reference without the storage scheme prefix,
resolution fails exactly when splitting on the first `'/'` yields fewer
than two segments; a reference that resolves splits as
`container ++ '/' ++ name` with no `'/'` in the container — but either
part may be empty, so the non-emptiness asserted by the original claim
does not hold. -/
theorem shorthand_resolution (raw : List Char)
    (h : List.isPrefixOf "https://".toList raw = false) :
    ((∃ msg, download_blob_resolve raw = .error msg) ↔ (splitFirst '/' raw).length < 2) ∧
    (∀ container_name blob_name,
      download_blob_resolve raw = .ok (.resolved container_name blob_name) →
      raw = container_name ++ '/' :: blob_name ∧ '/' ∉ container_name) := by
  by_cases hm : '/' ∈ raw
  · obtain ⟨a, b, h1, h2, h3⟩ := splitFirst_found '/' raw hm
    have hres : download_blob_resolve raw = .ok (.resolved a b) := by
      rw [download_blob_resolve_fallback raw h, h1]
    constructor
    · rw [hres, h1]
      simp
    · intro cn bn heq
      rw [hres] at heq
      simp only [Except.ok.injEq, BlobRef.resolved.injEq] at heq
      obtain ⟨rfl, rfl⟩ := heq
      exact ⟨h2, h3⟩
  · have hres : download_blob_resolve raw =
        .error "Invalid blob path format. Expected container/blob_name".toList := by
      rw [download_blob_resolve_fallback raw h, splitFirst_not_mem '/' raw hm]
    constructor
    · rw [hres, splitFirst_not_mem '/' raw hm]
      simp
    · intro cn bn heq
      rw [hres] at heq
      exact Except.noConfusion heq

/-- Witness for C2 (amended): the failure criterion evaluated on a
shorthand reference with no separator. -/
theorem shorthand_resolution_witness :
    ((∃ msg, download_blob_resolve "abc".toList = .error msg) ↔
      (splitFirst '/' "abc".toList).length < 2) :=
  (shorthand_resolution "abc".toList (by decide)).1

/-- C2 (counterexample): the reference `"a/"` has no scheme prefix, passes
path validation (so the request proceeds past locator resolution), and
resolves to container `"a"` with an empty blob name — contradicting the
claim that container and name are both non-empty past resolution. -/
theorem shorthand_resolution_cex :
    List.isPrefixOf "https://".toList "a/".toList = false ∧
    download_blob_resolve "a/".toList = .ok (.resolved ['a'] []) ∧
    validate_file_path (some "a/".toList) = true := by decide

/-- The magic-byte step returns one of the two supported kinds. -/
theorem file_type_from_magic_cases (content : List Nat) :
    file_type_from_magic content = "pdf".toList ∨ file_type_from_magic content = "text".toList := by
  unfold file_type_from_magic
  split
  · exact Or.inl rfl
  · exact Or.inr rfl

/-- The filename-extension step returns one of the two supported kinds. -/
theorem file_type_from_filename_cases (filename : Option (List Char)) (content : List Nat) :
    file_type_from_filename filename content = "pdf".toList ∨
    file_type_from_filename filename content = "text".toList := by
  cases filename with
  | none => exact file_type_from_magic_cases content
  | some fn =>
    simp only [file_type_from_filename]
    split
    · exact file_type_from_magic_cases content
    · split
      · exact Or.inl rfl
      · split
        · exact Or.inr rfl
        · exact file_type_from_magic_cases content

/-- File-type determination returns one of the two supported kinds. -/
theorem determine_file_type_cases (content_type filename : Option (List Char))
    (content : List Nat) :
    determine_file_type content_type filename content = "pdf".toList ∨
    determine_file_type content_type filename content = "text".toList := by
  cases content_type with
  | none => exact file_type_from_filename_cases filename content
  | some ct =>
    simp only [determine_file_type]
    split
    · exact file_type_from_filename_cases filename content
    · split
      · exact Or.inl rfl
      · split
        · exact Or.inr rfl
        · exact file_type_from_filename_cases filename content

/-- The PDF extractor never produces the unsupported-type failure. -/
theorem extract_from_pdf_not_unsupported (pdfParse : List Nat → Option PdfDoc)
    (content : List Nat) :
    isUnsupportedErr (extract_from_pdf pdfParse content) = false := by
  cases hp : pdfParse content with
  | none =>
    unfold extract_from_pdf
    rw [hp]
    rfl
  | some doc =>
    unfold extract_from_pdf
    rw [hp]
    dsimp only
    split_ifs with h1 h2
    · rfl
    · rfl
    · rfl

/-- The text extractor never produces the unsupported-type failure. -/
theorem extract_from_text_not_unsupported (content : List Nat) :
    isUnsupportedErr (extract_from_text content) = false := by
  unfold extract_from_text
  cases firstDecode encodings content with
  | none => rfl
  | some s => rfl

/-- C9: file-type determination is total — it returns `'pdf'` or `'text'`
for every combination of content type, filename and content — so the
"Unsupported file type" branch of `extract_text_from_content` is
unreachable for every input. -/
theorem file_type_detection_total (pdfParse : List Nat → Option PdfDoc)
    (content_type filename : Option (List Char)) (content : List Nat) :
    (determine_file_type content_type filename content = "pdf".toList ∨
      determine_file_type content_type filename content = "text".toList) ∧
    isUnsupportedErr (extract_text_from_content pdfParse content content_type filename) = false := by
  refine ⟨determine_file_type_cases content_type filename content, ?_⟩
  unfold extract_text_from_content
  rcases determine_file_type_cases content_type filename content with hd | hd
  · rw [hd, if_pos rfl]
    exact extract_from_pdf_not_unsupported pdfParse content
  · rw [hd, if_neg (by decide), if_pos (Or.inr rfl)]
    exact extract_from_text_not_unsupported content

/-- C5: format detection applies its checks in precedence order —
content-type substring (`pdf` before `text`), then filename extension
(`.pdf`, then the text-like extensions), then the 4-byte PDF magic
signature, then the `'text'` default; in particular bytes starting with
the PDF magic with both hints absent are detected as `pdf`. -/
theorem format_sniffer_precedence (content_type filename : Option (List Char))
    (content : List Nat) :
    (∀ ct, content_type = some ct → containsSub "pdf".toList (pyLower ct) = true →
      determine_file_type content_type filename content = "pdf".toList) ∧
    (∀ ct, content_type = some ct → containsSub "pdf".toList (pyLower ct) = false →
      containsSub "text".toList (pyLower ct) = true →
      determine_file_type content_type filename content = "text".toList) ∧
    ((∀ ct, content_type = some ct → containsSub "pdf".toList (pyLower ct) = false ∧
        containsSub "text".toList (pyLower ct) = false) →
      (∀ fn, filename = some fn → endsWithList (pyLower fn) ".pdf".toList = true →
        determine_file_type content_type filename content = "pdf".toList) ∧
      (∀ fn, filename = some fn → endsWithList (pyLower fn) ".pdf".toList = false →
        (endsWithList (pyLower fn) ".txt".toList = true ∨
          endsWithList (pyLower fn) ".md".toList = true ∨
          endsWithList (pyLower fn) ".csv".toList = true ∨
          endsWithList (pyLower fn) ".json".toList = true ∨
          endsWithList (pyLower fn) ".xml".toList = true) →
        determine_file_type content_type filename content = "text".toList) ∧
      ((∀ fn, filename = some fn → endsWithList (pyLower fn) ".pdf".toList = false ∧
          endsWithList (pyLower fn) ".txt".toList = false ∧
          endsWithList (pyLower fn) ".md".toList = false ∧
          endsWithList (pyLower fn) ".csv".toList = false ∧
          endsWithList (pyLower fn) ".json".toList = false ∧
          endsWithList (pyLower fn) ".xml".toList = false) →
        determine_file_type content_type filename content = file_type_from_magic content)) ∧
    (List.isPrefixOf [0x25, 0x50, 0x44, 0x46] content = true →
      determine_file_type none none content = "pdf".toList) := by
  have hemptyct : ∀ s : List Char, s.isEmpty = true → pyLower s = [] := by
    intro s hs
    rw [List.isEmpty_iff.mp hs]
    rfl
  refine ⟨?_, ?_, ?_, ?_⟩
  · rintro ct rfl hpdf
    have hne : ct.isEmpty = false := by
      cases hce : ct.isEmpty
      · rfl
      · rw [hemptyct ct hce] at hpdf
        simp [containsSub] at hpdf
    simp only [determine_file_type]
    rw [if_neg (by simp [hne]), if_pos hpdf]
  · rintro ct rfl hpdf htext
    have hne : ct.isEmpty = false := by
      cases hce : ct.isEmpty
      · rfl
      · rw [hemptyct ct hce] at htext
        simp [containsSub] at htext
    simp only [determine_file_type]
    rw [if_neg (by simp [hne]), if_neg (by rw [hpdf]; decide), if_pos htext]
  · intro hctfall
    have hred : determine_file_type content_type filename content =
        file_type_from_filename filename content := by
      cases content_type with
      | none => rfl
      | some ct =>
        obtain ⟨h1, h2⟩ := hctfall ct rfl
        simp only [determine_file_type]
        cases hce : ct.isEmpty
        · rw [if_neg (by simp), if_neg (by rw [h1]; decide), if_neg (by rw [h2]; decide)]
        · rw [if_pos rfl]
    refine ⟨?_, ?_, ?_⟩
    · rintro fn rfl hpdf
      have hne : fn.isEmpty = false := by
        cases hfe : fn.isEmpty
        · rfl
        · rw [List.isEmpty_iff.mp hfe] at hpdf
          simp [endsWithList, pyLower, List.isSuffixOf] at hpdf
      rw [hred]
      simp only [file_type_from_filename]
      rw [if_neg (by simp [hne]), if_pos hpdf]
    · rintro fn rfl hpdf hext
      have hne : fn.isEmpty = false := by
        cases hfe : fn.isEmpty
        · rfl
        · rw [List.isEmpty_iff.mp hfe] at hext
          rcases hext with h | h | h | h | h <;>
            simp [endsWithList, pyLower, List.isSuffixOf] at h
      rw [hred]
      simp only [file_type_from_filename]
      rw [if_neg (by simp [hne]), if_neg (by rw [hpdf]; decide), if_pos (by
        rcases hext with h | h | h | h | h
        exacts [Or.inl h, Or.inr (Or.inl h), Or.inr (Or.inr (Or.inl h)),
          Or.inr (Or.inr (Or.inr (Or.inl h))), Or.inr (Or.inr (Or.inr (Or.inr h)))])]
    · intro hfnfall
      rw [hred]
      cases filename with
      | none => rfl
      | some fn =>
        obtain ⟨h1, h2, h3, h4, h5, h6⟩ := hfnfall fn rfl
        simp only [file_type_from_filename]
        cases hfe : fn.isEmpty
        · rw [if_neg (by simp), if_neg (by rw [h1]; decide),
            if_neg (by rw [h2, h3, h4, h5, h6]; decide)]
        · rw [if_pos rfl]
  · intro hmagic
    simp only [determine_file_type, file_type_from_filename, file_type_from_magic]
    rw [if_pos hmagic]

/-- Witness for C5: the content-type hint beating a `.txt` filename, and
the magic-byte fallback. -/
theorem format_sniffer_witness :
    determine_file_type (some "application/PDF".toList) (some "notes.txt".toList) [] =
      "pdf".toList ∧
    determine_file_type none none [0x25, 0x50, 0x44, 0x46, 0x2D] = "pdf".toList := by
  constructor
  · exact (format_sniffer_precedence (some "application/PDF".toList)
      (some "notes.txt".toList) []).1 "application/PDF".toList rfl (by decide)
  · exact (format_sniffer_precedence none none [0x25, 0x50, 0x44, 0x46, 0x2D]).2.2.2 (by decide)

/-- C6: a request to a task endpoint carrying neither credential header
receives 401 "API key required"; a request carrying a non-empty key (after
the bearer-prefix handling) different from the endpoint's configured key —
a configured key being a truthy one, since `if not expected_key:` answers
500 for an unset or empty configuration — receives 403; both happen for
every body and every handler, so the check runs before field validation
and before any blob or LLM work. -/
theorem auth_check_first {α : Type} (expected_key : Option (List Char))
    (required_fields : List (List Char)) (handler : HttpRequest → TaskResponse α) :
    (∀ jsonData, run_task_endpoint expected_key required_fields handler ⟨none, none, jsonData⟩ =
      .failure 401 "API key required".toList
        "Please provide API key in X-API-Key header or Authorization header".toList) ∧
    (∀ req api_key expected, effective_api_key req = some api_key → api_key.isEmpty = false →
      expected_key = some expected → expected.isEmpty = false → api_key ≠ expected →
      run_task_endpoint expected_key required_fields handler req =
      .failure 403 "Invalid API key".toList
        "The provided API key is not valid for this endpoint".toList) := by
  constructor
  · intro jsonData
    rfl
  · intro req k e hk hne hexp hee hneq
    subst hexp
    unfold run_task_endpoint require_api_key
    rw [hk]
    dsimp only
    rw [if_neg (by simp [hne]), if_neg (by simp [hee]), if_neg hneq]

/-- Witness for C6: both failure modes at concrete requests. -/
theorem auth_check_first_witness :
    run_task_endpoint (some "summarize-key-123".toList) ["file_path".toList]
      (fun _ => TaskResponse.success () []) ⟨none, none, none⟩ =
      .failure 401 "API key required".toList
        "Please provide API key in X-API-Key header or Authorization header".toList ∧
    run_task_endpoint (some "summarize-key-123".toList) ["file_path".toList]
      (fun _ => TaskResponse.success () []) ⟨some "wrong".toList, none, none⟩ =
      .failure 403 "Invalid API key".toList
        "The provided API key is not valid for this endpoint".toList := by
  constructor
  · exact (auth_check_first (some "summarize-key-123".toList) ["file_path".toList]
      (fun _ => TaskResponse.success () [])).1 none
  · exact (auth_check_first (some "summarize-key-123".toList) ["file_path".toList]
      (fun _ => TaskResponse.success () [])).2 ⟨some "wrong".toList, none, none⟩
      "wrong".toList "summarize-key-123".toList (by decide) (by decide) rfl (by decide)
      (by decide)

/-- C10: a `file_path` starting with `"http"` whose final `'/'`-separated
segment contains no `'.'` is rejected by every task endpoint with 400 and
error `invalid_file_path`, for every blob store — so the blob is never
fetched. -/
theorem http_path_no_extension_rejected {α : Type} (store : BlobStore)
    (pdfParse : List Nat → Option PdfDoc) (max_length : Nat)
    (process : List Char → BlobProps → List Char → Bool → TaskResponse α)
    (expected_key : Option (List Char)) (required_fields : List (List Char))
    (req : HttpRequest) (fp : List Char)
    (hauth : require_api_key expected_key req = none)
    (hfields : validate_request_data required_fields req = none)
    (hlook : (req.jsonData.getD []).lookup "file_path".toList = some fp)
    (hhttp : List.isPrefixOf "http".toList fp = true)
    (hdot : ((splitChar '/' fp).getLastD []).contains '.' = false) :
    run_task_endpoint expected_key required_fields
      (task_handler store pdfParse max_length process) req =
    .failure 400 "invalid_file_path".toList "Invalid file path format".toList := by
  have hne : fp.isEmpty = false := by
    cases fp with
    | nil => simp [List.isPrefixOf] at hhttp
    | cons c rest => rfl
  have hval : validate_file_path (some fp) = false := by
    show (if fp.isEmpty = true then false
      else if List.isPrefixOf "http".toList fp = true then
        fp.contains '/' && ((splitChar '/' fp).getLastD []).contains '.'
      else fp.contains '/' && decide (2 ≤ (splitChar '/' fp).length)) = false
    rw [if_neg (by rw [hne]; decide), if_pos hhttp, hdot, Bool.and_false]
  simp only [run_task_endpoint, task_handler]
  rw [hauth, hfields, hlook, hval]
  rfl

/-- Witness for C10: a full URL without a filename extension rejected on a
store whose every call fails. -/
theorem http_path_no_extension_rejected_witness :
    run_task_endpoint (some "k1".toList) ["file_path".toList]
      (task_handler ⟨fun _ => .error .other, fun _ => .error .other⟩ (fun _ => none) 100000
        (fun _ _ _ _ => TaskResponse.success () []))
      ⟨some "k1".toList, none, some [("file_path".toList, "https://acct/con/blob".toList)]⟩ =
    .failure 400 "invalid_file_path".toList "Invalid file path format".toList :=
  http_path_no_extension_rejected _ _ _ _ _ _ _ "https://acct/con/blob".toList
    (by decide) (by decide) (by decide) (by decide) (by decide)

/-- A successful PDF extraction is never blank after stripping: the
extractor's own guard rejects a blank joined result. -/
theorem extract_from_pdf_ok_nonblank (pdfParse : List Nat → Option PdfDoc)
    (content : List Nat) (t : List Char)
    (h : extract_from_pdf pdfParse content = .ok t) : (pyStrip t).isEmpty = false := by
  cases hp : pdfParse content with
  | none =>
    unfold extract_from_pdf at h
    rw [hp] at h
    exact Except.noConfusion h
  | some doc =>
    unfold extract_from_pdf at h
    rw [hp] at h
    dsimp only at h
    split_ifs at h with h1 h2
    simp only [Except.ok.injEq] at h
    subst h
    simpa using h2

/-- C1 (amended): on the PDF path an empty or whitespace-only extraction
is a terminal failure before any derivation call, so text that reaches
derivation from a PDF is never blank; the text path performs no such
check, so an empty text decode proceeds to derivation (see the
counterexample). -/
theorem pdf_path_nonblank (pdfParse : List Nat → Option PdfDoc) (content : List Nat)
    (content_type filename : Option (List Char)) (t : List Char)
    (hft : determine_file_type content_type filename content = "pdf".toList)
    (hok : extract_text_from_content pdfParse content content_type filename = .ok t) :
    (pyStrip t).isEmpty = false := by
  simp only [extract_text_from_content] at hok
  rw [hft, if_pos rfl] at hok
  exact extract_from_pdf_ok_nonblank pdfParse content t hok

/-- Witness for C1 (amended): a one-page PDF whose page text is
`"hello"`. -/
theorem pdf_path_nonblank_witness : (pyStrip "hello".toList).isEmpty = false :=
  pdf_path_nonblank (fun _ => some ⟨false, ["hello".toList]⟩) [0x25, 0x50, 0x44, 0x46]
    none none "hello".toList (by decide) (by decide)

/-- C1 (counterexample): a zero-byte text blob decodes to the empty
string, yet the `/summarize` request succeeds — the empty extraction is
handed to derivation (`original_length = 0`) instead of terminating the
request, refuting the claim for the text path. -/
theorem empty_text_reaches_derivation :
    summarize_endpoint
      ⟨fun _ => .ok [], fun _ => .ok ⟨some "text/plain".toList, "empty.txt".toList⟩⟩
      (fun _ => none) (fun _ => some "ok".toList) (some "summarize-key-123".toList)
      ⟨some "summarize-key-123".toList, none,
        some [("file_path".toList, "demo/empty.txt".toList)]⟩ =
      .success ⟨"demo/empty.txt".toList, ⟨some "text/plain".toList, "empty.txt".toList⟩,
        "ok".toList, 0, 2, false⟩ "Document summarized successfully".toList ∧
    extract_text_from_content (fun _ => none) [] (some "text/plain".toList)
      (some "empty.txt".toList) = .ok [] ∧
    pyStrip ([] : List Char) = [] := by decide

/-- C7 (amended): on every successful `/summarize` response,
`original_length` is the character count of the length-limited text handed
to derivation (equal to the extracted text's count whenever
`was_truncated` is false, but capped at the budget otherwise), and
`summary_length` is the character count of the returned summary. -/
theorem summarize_lengths (store : BlobStore) (pdfParse : List Nat → Option PdfDoc)
    (llm : List Char → Option (List Char)) (expected_key : Option (List Char))
    (req : HttpRequest) (fp : List Char) (content : List Nat) (props : BlobProps)
    (t : List Char) (d : SummarizeData) (msg : List Char)
    (hlook : (req.jsonData.getD []).lookup "file_path".toList = some fp)
    (hdl : download_blob_content store fp = .ok content)
    (hprops : get_blob_properties store fp = .ok props)
    (hex : extract_text_from_content pdfParse content props.content_type (some props.name) =
      .ok t)
    (hsucc : summarize_endpoint store pdfParse llm expected_key req = .success d msg) :
    d.original_length = (validate_text_length t).1.length ∧
    d.summary_length = d.summary.length ∧
    (d.was_truncated = false → d.original_length = t.length) := by
  unfold summarize_endpoint run_task_endpoint at hsucc
  cases hra : require_api_key expected_key req with
  | some r =>
    rw [hra] at hsucc
    exact TaskResponse.noConfusion hsucc
  | none =>
    rw [hra] at hsucc
    dsimp only at hsucc
    cases hvd : validate_request_data ["file_path".toList] req with
    | some r =>
      rw [hvd] at hsucc
      exact TaskResponse.noConfusion hsucc
    | none =>
      rw [hvd] at hsucc
      dsimp only at hsucc
      simp only [summarize_handler, task_handler] at hsucc
      rw [hlook] at hsucc
      cases hvf : validate_file_path (some fp) with
      | false =>
        rw [hvf] at hsucc
        exact TaskResponse.noConfusion hsucc
      | true =>
        rw [hvf] at hsucc
        rw [if_neg (by simp)] at hsucc
        dsimp only at hsucc
        rw [hdl] at hsucc
        dsimp only at hsucc
        rw [hprops] at hsucc
        dsimp only at hsucc
        rw [hex] at hsucc
        dsimp only at hsucc
        simp only [summarize_document] at hsucc
        cases hllm : llm (validate_text_length t 100000).1 with
        | none =>
          rw [hllm] at hsucc
          exact TaskResponse.noConfusion hsucc
        | some reply =>
          rw [hllm] at hsucc
          dsimp only at hsucc
          rw [if_neg (by simp)] at hsucc
          simp only [TaskResponse.success.injEq] at hsucc
          obtain ⟨hd, -⟩ := hsucc
          subst hd
          refine ⟨rfl, rfl, ?_⟩
          intro hwt
          by_cases hlen : t.length ≤ 100000
          · show (validate_text_length t 100000).1.length = t.length
            simp [validate_text_length, hlen]
          · exfalso
            simp only [validate_text_length, if_neg hlen] at hwt
            exact Bool.noConfusion hwt

/-- Witness for C7 (amended): a two-character document summarized as
`"ok"`. -/
theorem summarize_lengths_witness :
    (⟨"demo/f.txt".toList, ⟨some "text/plain".toList, "f.txt".toList⟩, "ok".toList, 2, 2,
        false⟩ : SummarizeData).original_length =
      (validate_text_length "hi".toList).1.length ∧
    (⟨"demo/f.txt".toList, ⟨some "text/plain".toList, "f.txt".toList⟩, "ok".toList, 2, 2,
        false⟩ : SummarizeData).summary_length =
      (⟨"demo/f.txt".toList, ⟨some "text/plain".toList, "f.txt".toList⟩, "ok".toList, 2, 2,
        false⟩ : SummarizeData).summary.length ∧
    ((⟨"demo/f.txt".toList, ⟨some "text/plain".toList, "f.txt".toList⟩, "ok".toList, 2, 2,
        false⟩ : SummarizeData).was_truncated = false →
      (⟨"demo/f.txt".toList, ⟨some "text/plain".toList, "f.txt".toList⟩, "ok".toList, 2, 2,
        false⟩ : SummarizeData).original_length = "hi".toList.length) :=
  summarize_lengths
    ⟨fun _ => .ok [0x68, 0x69], fun _ => .ok ⟨some "text/plain".toList, "f.txt".toList⟩⟩
    (fun _ => none) (fun _ => some "ok".toList) (some "summarize-key-123".toList)
    ⟨some "summarize-key-123".toList, none, some [("file_path".toList, "demo/f.txt".toList)]⟩
    "demo/f.txt".toList [0x68, 0x69] ⟨some "text/plain".toList, "f.txt".toList⟩
    "hi".toList _ "Document summarized successfully".toList
    (by decide) (by decide) (by decide) (by decide) (by decide)


/-- The UTF-8 decode of the 100001-byte counterexample document. -/
theorem big_ascii_decode :
    utf8Decode (List.replicate 100001 0x61) = some (List.replicate 100001 'a') := by
  have h0 := utf8Decode_replicate_ascii 0x61 (by norm_num) 100001
  rwa [show Char.ofNat 0x61 = 'a' by decide] at h0

/-- One unfolding step of the decoding loop. -/
theorem firstDecode_cons (d : List Nat → Option (List Char))
    (ds : List (List Nat → Option (List Char))) (content : List Nat) :
    firstDecode (d :: ds) content =
      match d content with
      | some s => some s
      | none => firstDecode ds content := rfl

/-- Unfolding rule for the text extractor. -/
theorem extract_from_text_eq (content : List Nat) :
    extract_from_text content =
      match firstDecode encodings content with
      | some s => Except.ok s
      | none => Except.error ExtractErr.undecodableText := rfl

/-- The extraction of the 100001-byte counterexample document. -/
theorem big_ascii_extraction : extract_text_from_content (fun _ => none) (List.replicate 100001 0x61)
    (some "text/plain".toList) (some "big.txt".toList) = .ok (List.replicate 100001 'a') := by
  have hdet : determine_file_type (some "text/plain".toList) (some "big.txt".toList)
      (List.replicate 100001 0x61) = "text".toList := by
    simp only [determine_file_type]
    rw [if_neg (by decide), if_neg (by decide), if_pos (by decide)]
  have hfd : firstDecode encodings (List.replicate 100001 0x61) =
      some (List.replicate 100001 'a') := by
    rw [show encodings = [utf8Decode, utf16Decode, latin1Decode, cp1252Decode] from rfl,
      firstDecode_cons, big_ascii_decode]
  have hext : extract_from_text (List.replicate 100001 0x61) =
      .ok (List.replicate 100001 'a') := by
    rw [extract_from_text_eq, hfd]
  simp only [extract_text_from_content]
  rw [hdet, if_neg (by decide), if_pos (Or.inr rfl)]
  exact hext

/-- Symbolic evaluation of a successful `/summarize` request: with every
pipeline stage's outcome given as an equation, the endpoint returns the
success envelope built from the stripped reply and the length-limited
text. -/
theorem summarize_endpoint_eval (store : BlobStore) (pdfParse : List Nat → Option PdfDoc)
    (llm : List Char → Option (List Char)) (expected_key : Option (List Char))
    (req : HttpRequest) (fp : List Char) (content : List Nat) (props : BlobProps)
    (t reply : List Char)
    (hra : require_api_key expected_key req = none)
    (hvd : validate_request_data ["file_path".toList] req = none)
    (hlook : (req.jsonData.getD []).lookup "file_path".toList = some fp)
    (hvf : validate_file_path (some fp) = true)
    (hdl : download_blob_content store fp = .ok content)
    (hprops : get_blob_properties store fp = .ok props)
    (hex : extract_text_from_content pdfParse content props.content_type (some props.name) =
      .ok t)
    (hllm : llm (validate_text_length t 100000).1 = some reply) :
    summarize_endpoint store pdfParse llm expected_key req =
      .success ⟨fp, props, pyStrip reply, (validate_text_length t 100000).1.length,
        (pyStrip reply).length, (validate_text_length t 100000).2⟩
        "Document summarized successfully".toList := by
  unfold summarize_endpoint run_task_endpoint
  rw [hra]
  dsimp only
  rw [hvd]
  dsimp only
  unfold summarize_handler task_handler
  dsimp only
  rw [hlook, hvf]
  rw [if_neg (by simp)]
  dsimp only
  rw [hdl]
  dsimp only
  rw [hprops]
  dsimp only
  rw [hex]
  dsimp only
  simp only [summarize_document]
  rw [hllm]
  dsimp only
  rw [if_neg (by simp)]

/-- C7 (counterexample): a 100001-character text document is truncated to
the 100000-character budget before derivation, so the success response
reports `original_length = 100000` while the text extracted from the
document has 100001 characters — refuting the claim that
`original_length` always equals the extracted input's character count. -/
theorem summarize_original_length_cex :
    summarize_endpoint
        ⟨fun _ => .ok (List.replicate 100001 0x61),
          fun _ => .ok ⟨some "text/plain".toList, "big.txt".toList⟩⟩
        (fun _ => none) (fun _ => some "ok".toList) (some "summarize-key-123".toList)
        ⟨some "summarize-key-123".toList, none,
          some [("file_path".toList, "demo/big.txt".toList)]⟩ =
      .success ⟨"demo/big.txt".toList, ⟨some "text/plain".toList, "big.txt".toList⟩,
        "ok".toList, 100000, 2, true⟩ "Document summarized successfully".toList ∧
    extract_text_from_content (fun _ => none) (List.replicate 100001 0x61)
        (some "text/plain".toList) (some "big.txt".toList) =
      .ok (List.replicate 100001 'a') ∧
    (List.replicate 100001 'a').length = 100001 := by
  have hvalid : validate_text_length (List.replicate 100001 'a') 100000 =
      (List.replicate 100000 'a', true) := by
    simp only [validate_text_length, List.length_replicate]
    rw [if_neg (by norm_num), List.take_replicate]
    norm_num
  have h := summarize_endpoint_eval
    ⟨fun _ => .ok (List.replicate 100001 0x61),
      fun _ => .ok ⟨some "text/plain".toList, "big.txt".toList⟩⟩
    (fun _ => none) (fun _ => some "ok".toList) (some "summarize-key-123".toList)
    ⟨some "summarize-key-123".toList, none,
      some [("file_path".toList, "demo/big.txt".toList)]⟩
    "demo/big.txt".toList (List.replicate 100001 0x61)
    ⟨some "text/plain".toList, "big.txt".toList⟩ (List.replicate 100001 'a') "ok".toList
    (by decide) (by decide) (by decide) (by decide) (by rfl) (by rfl) big_ascii_extraction (by rfl)
  rw [hvalid, show pyStrip "ok".toList = "ok".toList by decide] at h
  dsimp only at h
  rw [List.length_replicate] at h
  exact ⟨h, big_ascii_extraction, by rw [List.length_replicate]⟩

end AiAgent
